import Mathlib

/-!
Verification of the selection-ledger core of `compare_analysis_cursor.py`.

The program keeps two JSON-backed stores:
  * `comparison_results.json` — the ledger: item id (email id) to a record with
    `selected_models` (a list of model names) and `comparison_date`;
  * `selection_stats.json` — per-model selection counters.

Python dicts are embedded as association lists with unique keys preserved by
`setKey`; a JSON file on disk is a `FileState`: missing, unparsable, or parsed
content.  Timestamps (`str(datetime.now())`) are abstracted to a `Nat` passed
in by the caller; write failures (exceptions from `open`/`json.dump`) are
modelled by boolean flags saying whether each write succeeds.
-/

/-- Lookup in a Python-dict-like association list. -/
def lookupKey (l : List (String × α)) (k : String) : Option α :=
  match l with
  | [] => none
  | (k', v) :: rest => if k' = k then some v else lookupKey rest k

/-- Python dict assignment `d[k] = v`: replace the value in place if the key
exists (preserving position), else append the pair at the end. -/
def setKey (l : List (String × α)) (k : String) (v : α) : List (String × α) :=
  match l with
  | [] => [(k, v)]
  | (k', v') :: rest => if k' = k then (k, v) :: rest else (k', v') :: setKey rest k v

/-- One ledger entry: the dict literal
`{"selected_models": [...], "comparison_date": str(datetime.now())}` built at
line 70 of the source. -/
structure ComparisonResult where
  selected_models : List String
  comparison_date : Nat
deriving DecidableEq, Repr

/-- The ledger persisted in `comparison_results.json`. -/
abbrev Ledger := List (String × ComparisonResult)

/-- The counters persisted in `selection_stats.json`. -/
abbrev Stats := List (String × Nat)

/-- State of a JSON file on disk as the loading code observes it. -/
inductive FileState (α : Type) where
  | missing
  | corrupt
  | parsed (data : α)
deriving DecidableEq, Repr

/-- `load_json_data`: a missing file returns `{}`; `json.load` raising on an
unparsable file is caught and also returns `{}`. -/
def load_json_data (fs : FileState (List (String × α))) : List (String × α) :=
  match fs with
  | .parsed d => d
  | .missing => []
  | .corrupt => []

/-- The literal default returned by `load_selection_stats` when the stats file
is absent or unreadable. -/
def default_selection_stats : Stats :=
  [("OpenAI", 0), ("DeepSeek", 0), ("LLaMA", 0), ("Qwen", 0)]

/-- `load_selection_stats`: parsed content is returned as-is; a missing file
skips the `if`, and an unparsable one raises inside the `try`; both fall
through to the seeded default. -/
def load_selection_stats (fs : FileState Stats) : Stats :=
  match fs with
  | .parsed d => d
  | .missing => default_selection_stats
  | .corrupt => default_selection_stats

/-- `update_selection_stats`: reload the stats, bump the model's counter with
`stats.get(model, 0) + 1`, and try to write; a failing write is caught and
printed, leaving the file as it was. -/
def update_selection_stats (sf : FileState Stats) (writeOk : Bool) (model : String) :
    FileState Stats :=
  let stats := load_selection_stats sf
  let stats' := setKey stats model ((lookupKey stats model).getD 0 + 1)
  if writeOk then .parsed stats' else sf

/-- Lines 69-70: `if email_id not in results: results[email_id] = {...}`. -/
def ensure_record (results : Ledger) (email_id : String) (now : Nat) : Ledger :=
  if (lookupKey results email_id).isSome then results
  else setKey results email_id ⟨[], now⟩

/-- Lines 69-73: create the record if absent, then append the model to its
`selected_models` when not already present. -/
def add_model (results : Ledger) (email_id model : String) (now : Nat) : Ledger :=
  let results1 := ensure_record results email_id now
  let r := (lookupKey results1 email_id).getD ⟨[], now⟩
  if model ∈ r.selected_models then results1
  else setKey results1 email_id ⟨r.selected_models ++ [model], r.comparison_date⟩

/-- Result of one `save_model_selection` call: the two file states afterwards
and the boolean the function returns. -/
structure SaveOutcome where
  resultsFile : FileState Ledger
  statsFile : FileState Stats
  ok : Bool
deriving DecidableEq, Repr

/-- `save_model_selection`: everything up to and including the ledger write is
inside one `try`.  An unparsable results file makes `json.load` raise, so the
whole call returns `False` touching nothing; a failing ledger write likewise
returns `False` before `update_selection_stats` runs.  After a successful
ledger write, `update_selection_stats model` runs unconditionally and the call
returns `True` even if the stats write failed (that failure is swallowed
inside `update_selection_stats`). -/
def save_model_selection (email_id model : String) (now : Nat)
    (rf : FileState Ledger) (sf : FileState Stats)
    (ledgerWriteOk statsWriteOk : Bool) : SaveOutcome :=
  match rf with
  | .corrupt => ⟨rf, sf, false⟩
  | .missing =>
      if ledgerWriteOk then
        ⟨.parsed (add_model [] email_id model now),
         update_selection_stats sf statsWriteOk model, true⟩
      else ⟨rf, sf, false⟩
  | .parsed d =>
      if ledgerWriteOk then
        ⟨.parsed (add_model d email_id model now),
         update_selection_stats sf statsWriteOk model, true⟩
      else ⟨rf, sf, false⟩

/-- The whole persistent state of the program. -/
structure SysState where
  resultsFile : FileState Ledger
  statsFile : FileState Stats
deriving DecidableEq, Repr

/-- One reviewer action `select(item, model)` together with the abstract clock
value and the fate of the two writes it may attempt. -/
structure SelectOp where
  email_id : String
  model : String
  now : Nat
  ledgerWriteOk : Bool
  statsWriteOk : Bool
deriving DecidableEq, Repr

/-- Apply one `save_model_selection` call to the persistent state. -/
def applyOp (s : SysState) (op : SelectOp) : SysState :=
  let o := save_model_selection op.email_id op.model op.now s.resultsFile s.statsFile
    op.ledgerWriteOk op.statsWriteOk
  ⟨o.resultsFile, o.statsFile⟩

/-- Run a sequence of select operations left to right. -/
def runOps (s : SysState) (ops : List SelectOp) : SysState :=
  ops.foldl applyOp s

/-- Fresh deployment: neither backing file exists yet. -/
def initState : SysState := ⟨.missing, .missing⟩

/-- The persisted counter for a model, as a reader of the stats store sees it. -/
def countOf (s : SysState) (m : String) : Nat :=
  (lookupKey (load_selection_stats s.statsFile) m).getD 0

/-- The persisted selection record for an item, as a reader of the ledger sees
it. -/
def recordOf (s : SysState) (e : String) : Option ComparisonResult :=
  lookupKey (load_json_data s.resultsFile) e

/-- Number of select operations in a run that name a given model. -/
def selectCount (ops : List SelectOp) (m : String) : Nat :=
  (ops.filter (fun op => op.model = m)).length

/-- Number of distinct items whose persisted record selects a given model
(keys of the ledger dict are unique). -/
def itemsSelecting (s : SysState) (m : String) : Nat :=
  ((load_json_data s.resultsFile).filter (fun p => m ∈ p.2.selected_models)).length

theorem lookupKey_setKey_self (l : List (String × α)) (k : String) (v : α) :
    lookupKey (setKey l k v) k = some v := by
  induction l with
  | nil => simp [setKey, lookupKey]
  | cons p rest ih =>
      obtain ⟨k', v'⟩ := p
      by_cases h : k' = k
      · simp [setKey, h, lookupKey]
      · simp [setKey, h, lookupKey, ih]

theorem lookupKey_setKey_ne (l : List (String × α)) (k k' : String) (v : α)
    (h : k' ≠ k) : lookupKey (setKey l k v) k' = lookupKey l k' := by
  have h' : ¬(k = k') := fun hh => h hh.symm
  induction l with
  | nil => simp [setKey, lookupKey, h']
  | cons p rest ih =>
      obtain ⟨k'', v''⟩ := p
      by_cases hk : k'' = k
      · subst hk
        simp [setKey, lookupKey, h']
      · simp [setKey, hk, lookupKey, ih]

theorem lookupKey_mem (l : List (String × α)) (k : String) (v : α)
    (h : lookupKey l k = some v) : (k, v) ∈ l := by
  induction l with
  | nil => simp [lookupKey] at h
  | cons p rest ih =>
      obtain ⟨k', v'⟩ := p
      by_cases hk : k' = k
      · subst hk
        simp [lookupKey] at h
        simp [h]
      · simp [lookupKey, hk] at h
        exact List.mem_cons_of_mem _ (ih h)

theorem setKey_forall {P : ComparisonResult → Prop} (l : Ledger) (k : String)
    (v : ComparisonResult) (hl : ∀ p ∈ l, P p.2) (hv : P v) :
    ∀ p ∈ setKey l k v, P p.2 := by
  induction l with
  | nil =>
      intro p hp
      simp [setKey] at hp
      subst hp
      exact hv
  | cons q rest ih =>
      obtain ⟨k', v'⟩ := q
      intro p hp
      by_cases hk : k' = k
      · simp [setKey, hk] at hp
        rcases hp with hp | hp
        · subst hp; exact hv
        · exact hl p (List.mem_cons_of_mem _ hp)
      · simp only [setKey, hk, if_false, List.mem_cons] at hp
        rcases hp with hp | hp
        · subst hp
          exact hl (k', v') (List.mem_cons_self _ _)
        · exact ih (fun q hq => hl q (List.mem_cons_of_mem _ hq)) p hp

theorem setKey_setKey_same (l : List (String × α)) (k : String) (v w : α) :
    setKey (setKey l k v) k w = setKey l k w := by
  induction l with
  | nil => simp [setKey]
  | cons p rest ih =>
      obtain ⟨k', v'⟩ := p
      by_cases hk : k' = k
      · simp [setKey, hk]
      · simp [setKey, hk, ih]

theorem ensure_record_some (l : Ledger) (e : String) (now : Nat)
    (r : ComparisonResult) (h : lookupKey l e = some r) :
    ensure_record l e now = l := by
  simp [ensure_record, h]

theorem ensure_record_none (l : Ledger) (e : String) (now : Nat)
    (h : lookupKey l e = none) :
    ensure_record l e now = setKey l e ⟨[], now⟩ := by
  simp [ensure_record, h]

theorem add_model_already (l : Ledger) (e m : String) (now : Nat)
    (r : ComparisonResult) (h : lookupKey l e = some r)
    (hm : m ∈ r.selected_models) : add_model l e m now = l := by
  simp [add_model, ensure_record, h, hm]

theorem add_model_new (l : Ledger) (e m : String) (now : Nat)
    (r : ComparisonResult) (h : lookupKey l e = some r)
    (hm : m ∉ r.selected_models) :
    add_model l e m now = setKey l e ⟨r.selected_models ++ [m], r.comparison_date⟩ := by
  simp [add_model, ensure_record, h, hm]

theorem add_model_fresh (l : Ledger) (e m : String) (now : Nat)
    (h : lookupKey l e = none) :
    add_model l e m now = setKey l e ⟨[m], now⟩ := by
  simp [add_model, ensure_record, h, lookupKey_setKey_self, setKey_setKey_same]

theorem lookupKey_add_model_ne (l : Ledger) (e m : String) (now : Nat)
    (e' : String) (h : e' ≠ e) :
    lookupKey (add_model l e m now) e' = lookupKey l e' := by
  cases hl : lookupKey l e with
  | none => rw [add_model_fresh l e m now hl, lookupKey_setKey_ne _ _ _ _ h]
  | some r =>
      by_cases hm : m ∈ r.selected_models
      · rw [add_model_already l e m now r hl hm]
      · rw [add_model_new l e m now r hl hm, lookupKey_setKey_ne _ _ _ _ h]

theorem save_model_selection_success (e m : String) (now : Nat)
    (rf : FileState Ledger) (sf : FileState Stats) (sw : Bool)
    (h : rf ≠ .corrupt) :
    save_model_selection e m now rf sf true sw =
      ⟨.parsed (add_model (load_json_data rf) e m now),
       update_selection_stats sf sw m, true⟩ := by
  cases rf with
  | corrupt => exact absurd rfl h
  | missing => rfl
  | parsed d => rfl

theorem save_model_selection_ledger_fail (e m : String) (now : Nat)
    (rf : FileState Ledger) (sf : FileState Stats) (sw : Bool) :
    save_model_selection e m now rf sf false sw = ⟨rf, sf, false⟩ := by
  cases rf with
  | corrupt => rfl
  | missing => rfl
  | parsed d => rfl

theorem save_model_selection_corrupt (e m : String) (now : Nat)
    (sf : FileState Stats) (lw sw : Bool) :
    save_model_selection e m now .corrupt sf lw sw = ⟨.corrupt, sf, false⟩ := rfl

theorem update_selection_stats_self (sf : FileState Stats) (m : String) :
    (lookupKey (load_selection_stats (update_selection_stats sf true m)) m).getD 0
      = (lookupKey (load_selection_stats sf) m).getD 0 + 1 := by
  simp [update_selection_stats, load_selection_stats, lookupKey_setKey_self]

theorem update_selection_stats_ne (sf : FileState Stats) (m m' : String)
    (h : m' ≠ m) (sw : Bool) :
    (lookupKey (load_selection_stats (update_selection_stats sf sw m)) m').getD 0
      = (lookupKey (load_selection_stats sf) m').getD 0 := by
  cases sw with
  | false => simp [update_selection_stats]
  | true => simp [update_selection_stats, load_selection_stats,
      lookupKey_setKey_ne _ _ _ _ h]

theorem resultsFile_save_cases (e mo : String) (now : Nat) (rf : FileState Ledger)
    (sf : FileState Stats) (lw sw : Bool) :
    (save_model_selection e mo now rf sf lw sw).resultsFile = rf
      ∨ (save_model_selection e mo now rf sf lw sw).resultsFile
          = .parsed (add_model (load_json_data rf) e mo now) := by
  cases lw with
  | false => exact Or.inl (by rw [save_model_selection_ledger_fail])
  | true =>
      cases rf with
      | corrupt => exact Or.inl rfl
      | missing => exact Or.inr rfl
      | parsed d => exact Or.inr rfl

theorem statsFile_save_cases (e mo : String) (now : Nat) (rf : FileState Ledger)
    (sf : FileState Stats) (lw sw : Bool) :
    (save_model_selection e mo now rf sf lw sw).statsFile = sf
      ∨ (save_model_selection e mo now rf sf lw sw).statsFile
          = update_selection_stats sf sw mo := by
  cases lw with
  | false => exact Or.inl (by rw [save_model_selection_ledger_fail])
  | true =>
      cases rf with
      | corrupt => exact Or.inl rfl
      | missing => exact Or.inr rfl
      | parsed d => exact Or.inr rfl

theorem applyOp_not_corrupt (s : SysState) (op : SelectOp)
    (h : s.resultsFile ≠ .corrupt) : (applyOp s op).resultsFile ≠ .corrupt := by
  have hc := resultsFile_save_cases op.email_id op.model op.now s.resultsFile
    s.statsFile op.ledgerWriteOk op.statsWriteOk
  simp only [applyOp]
  rcases hc with hc | hc
  · rw [hc]; exact h
  · rw [hc]; simp

theorem countOf_save_success (rf : FileState Ledger) (sf : FileState Stats)
    (e mo m : String) (now : Nat) (hrf : rf ≠ .corrupt) :
    (lookupKey (load_selection_stats
        (save_model_selection e mo now rf sf true true).statsFile) m).getD 0
      = (lookupKey (load_selection_stats sf) m).getD 0
          + (if mo = m then 1 else 0) := by
  rw [save_model_selection_success e mo now rf sf true hrf]
  by_cases hm : mo = m
  · subst hm
    simp [update_selection_stats_self]
  · rw [update_selection_stats_ne sf mo m (fun hh => hm hh.symm) true]
    simp [hm]

theorem countOf_applyOp_success (s : SysState) (op : SelectOp) (m : String)
    (hrf : s.resultsFile ≠ .corrupt) (hlw : op.ledgerWriteOk = true)
    (hsw : op.statsWriteOk = true) :
    countOf (applyOp s op) m = countOf s m + (if op.model = m then 1 else 0) := by
  have h := countOf_save_success s.resultsFile s.statsFile op.email_id op.model m
    op.now hrf
  simp only [applyOp, countOf]
  rw [hlw, hsw]
  exact h

theorem countOf_le_update (sf : FileState Stats) (sw : Bool) (mo m : String) :
    (lookupKey (load_selection_stats sf) m).getD 0
      ≤ (lookupKey (load_selection_stats (update_selection_stats sf sw mo)) m).getD 0 := by
  cases sw with
  | false => exact le_refl _
  | true =>
      by_cases hm : m = mo
      · subst hm
        rw [update_selection_stats_self]
        exact Nat.le_succ _
      · rw [update_selection_stats_ne sf mo m hm true]

theorem countOf_le_applyOp (s : SysState) (op : SelectOp) (m : String) :
    countOf s m ≤ countOf (applyOp s op) m := by
  have hc := statsFile_save_cases op.email_id op.model op.now s.resultsFile
    s.statsFile op.ledgerWriteOk op.statsWriteOk
  simp only [applyOp, countOf]
  rcases hc with hc | hc
  · rw [hc]
  · rw [hc]
    exact countOf_le_update s.statsFile op.statsWriteOk op.model m

theorem countOf_le_runOps (s : SysState) (ops : List SelectOp) (m : String) :
    countOf s m ≤ countOf (runOps s ops) m := by
  induction ops generalizing s with
  | nil => exact le_refl _
  | cons op rest ih =>
      simp only [runOps, List.foldl_cons]
      exact le_trans (countOf_le_applyOp s op m) (ih (applyOp s op))

theorem recordOf_applyOp_ne (s : SysState) (op : SelectOp) (e' : String)
    (h : e' ≠ op.email_id) : recordOf (applyOp s op) e' = recordOf s e' := by
  have hc := resultsFile_save_cases op.email_id op.model op.now s.resultsFile
    s.statsFile op.ledgerWriteOk op.statsWriteOk
  simp only [applyOp, recordOf]
  rcases hc with hc | hc
  · rw [hc]
  · rw [hc]
    simp only [load_json_data]
    exact lookupKey_add_model_ne _ _ _ _ _ h

theorem countOf_applyOp_ne (s : SysState) (op : SelectOp) (m' : String)
    (h : m' ≠ op.model) : countOf (applyOp s op) m' = countOf s m' := by
  have hc := statsFile_save_cases op.email_id op.model op.now s.resultsFile
    s.statsFile op.ledgerWriteOk op.statsWriteOk
  simp only [applyOp, countOf]
  rcases hc with hc | hc
  · rw [hc]
  · rw [hc]
    exact update_selection_stats_ne s.statsFile op.model m' h op.statsWriteOk

theorem selectCount_cons (op : SelectOp) (ops : List SelectOp) (m : String) :
    selectCount (op :: ops) m
      = (if op.model = m then 1 else 0) + selectCount ops m := by
  simp only [selectCount, List.filter_cons]
  by_cases hm : op.model = m
  · simp [hm, Nat.add_comm]
  · simp [hm]

theorem countOf_runOps_all_ok (ops : List SelectOp) :
    ∀ (s : SysState) (m : String), s.resultsFile ≠ .corrupt →
      (∀ op ∈ ops, op.ledgerWriteOk = true ∧ op.statsWriteOk = true) →
      countOf (runOps s ops) m = countOf s m + selectCount ops m := by
  induction ops with
  | nil =>
      intro s m _ _
      simp [runOps, selectCount]
  | cons op rest ih =>
      intro s m hrf hops
      obtain ⟨h1, h2⟩ := hops op (List.mem_cons_self op rest)
      have hstep := countOf_applyOp_success s op m hrf h1 h2
      have hrest := ih (applyOp s op) m (applyOp_not_corrupt s op hrf)
        (fun o ho => hops o (List.mem_cons_of_mem op ho))
      simp only [runOps, List.foldl_cons] at hrest ⊢
      rw [hrest, hstep, selectCount_cons]
      by_cases hm : op.model = m
      · simp [hm]
        omega
      · simp [hm]

theorem countOf_initState (m : String) : countOf initState m = 0 := by
  by_cases h1 : ("OpenAI" : String) = m <;> by_cases h2 : ("DeepSeek" : String) = m <;>
    by_cases h3 : ("LLaMA" : String) = m <;> by_cases h4 : ("Qwen" : String) = m <;>
    simp [countOf, initState, load_selection_stats, default_selection_stats,
      lookupKey, h1, h2, h3, h4]

/-- Invariant: every record stored in the ledger file has a duplicate-free
`selected_models` list. -/
def ledgerNodup : FileState Ledger → Prop
  | .parsed d => ∀ p ∈ d, List.Nodup ((p : String × ComparisonResult).2.selected_models)
  | .missing => True
  | .corrupt => True

theorem nodup_append_one (l : List String) (a : String) (h : l.Nodup)
    (ha : a ∉ l) : (l ++ [a]).Nodup := by
  simp [List.nodup_append, h, ha]

theorem load_json_data_parsed (d : List (String × α)) :
    load_json_data (.parsed d) = d := rfl

theorem ledgerNodup_load (rf : FileState Ledger) (h : ledgerNodup rf) :
    ∀ p ∈ load_json_data rf, List.Nodup (p.2.selected_models) := by
  cases rf with
  | parsed d => exact h
  | missing => intro p hp; simp [load_json_data] at hp
  | corrupt => intro p hp; simp [load_json_data] at hp

theorem ledgerNodup_add_model (l : Ledger) (e m : String) (now : Nat)
    (h : ∀ p ∈ l, List.Nodup (p.2.selected_models)) :
    ledgerNodup (.parsed (add_model l e m now)) := by
  show ∀ p ∈ add_model l e m now, List.Nodup (p.2.selected_models)
  cases hl : lookupKey l e with
  | none =>
      rw [add_model_fresh l e m now hl]
      exact setKey_forall (P := fun r => List.Nodup r.selected_models) l e
        ⟨[m], now⟩ h (List.nodup_singleton m)
  | some r =>
      by_cases hm : m ∈ r.selected_models
      · rw [add_model_already l e m now r hl hm]
        exact h
      · rw [add_model_new l e m now r hl hm]
        refine setKey_forall (P := fun q => List.Nodup q.selected_models) l e _ h ?_
        exact nodup_append_one r.selected_models m
          (h (e, r) (lookupKey_mem l e r hl)) hm

theorem ledgerNodup_applyOp (s : SysState) (op : SelectOp)
    (h : ledgerNodup s.resultsFile) : ledgerNodup (applyOp s op).resultsFile := by
  have hc := resultsFile_save_cases op.email_id op.model op.now s.resultsFile
    s.statsFile op.ledgerWriteOk op.statsWriteOk
  simp only [applyOp]
  rcases hc with hc | hc
  · rw [hc]; exact h
  · rw [hc]
    exact ledgerNodup_add_model _ _ _ _ (ledgerNodup_load s.resultsFile h)

theorem ledgerNodup_runOps (s : SysState) (ops : List SelectOp)
    (h : ledgerNodup s.resultsFile) : ledgerNodup (runOps s ops).resultsFile := by
  induction ops generalizing s with
  | nil => exact h
  | cons op rest ih =>
      simp only [runOps, List.foldl_cons]
      exact ih (applyOp s op) (ledgerNodup_applyOp s op h)

theorem recordOf_applyOp_already (s : SysState) (op : SelectOp)
    (r : ComparisonResult) (hr : recordOf s op.email_id = some r)
    (hm : op.model ∈ r.selected_models) :
    recordOf (applyOp s op) op.email_id = some r := by
  have hc := resultsFile_save_cases op.email_id op.model op.now s.resultsFile
    s.statsFile op.ledgerWriteOk op.statsWriteOk
  simp only [applyOp, recordOf]
  rcases hc with hc | hc
  · rw [hc]
    exact hr
  · rw [hc]
    rw [load_json_data_parsed]
    rw [add_model_already (load_json_data s.resultsFile) op.email_id op.model op.now
      r hr hm]
    exact hr

theorem recordOf_applyOp_date (s : SysState) (op : SelectOp)
    (r : ComparisonResult) (hr : recordOf s op.email_id = some r) :
    ∃ r', recordOf (applyOp s op) op.email_id = some r'
      ∧ r'.comparison_date = r.comparison_date := by
  have hc := resultsFile_save_cases op.email_id op.model op.now s.resultsFile
    s.statsFile op.ledgerWriteOk op.statsWriteOk
  rcases hc with hc | hc
  · refine ⟨r, ?_, rfl⟩
    simp only [applyOp, recordOf]
    rw [hc]
    exact hr
  · by_cases hm : op.model ∈ r.selected_models
    · exact ⟨r, recordOf_applyOp_already s op r hr hm, rfl⟩
    · refine ⟨⟨r.selected_models ++ [op.model], r.comparison_date⟩, ?_, rfl⟩
      simp only [applyOp, recordOf]
      rw [hc]
      rw [load_json_data_parsed]
      rw [add_model_new (load_json_data s.resultsFile) op.email_id op.model op.now
        r hr hm]
      exact lookupKey_setKey_self _ _ _

/-- Claim C1 as stated is false on the code: the second identical
`select("e1","OpenAI")` adds nothing to the record (the record is unchanged),
yet the counter still advances, ending at 2 across both calls instead of 1. -/
theorem claim_C1_counterexample :
    recordOf (runOps initState [⟨"e1", "OpenAI", 1, true, true⟩,
        ⟨"e1", "OpenAI", 2, true, true⟩]) "e1"
      = recordOf (runOps initState [⟨"e1", "OpenAI", 1, true, true⟩]) "e1"
    ∧ countOf (runOps initState [⟨"e1", "OpenAI", 1, true, true⟩,
        ⟨"e1", "OpenAI", 2, true, true⟩]) "OpenAI" = 2
    ∧ countOf (runOps initState [⟨"e1", "OpenAI", 1, true, true⟩]) "OpenAI" = 1 := by
  decide

/-- Claim C1 amended: the stats counter is incremented on every select whose
ledger write succeeds, regardless of whether the model was newly added to the
item's record; in particular two identical selects in a row increment it by 2. -/
theorem claim_C1_amended (s : SysState) (e m : String) (now : Nat)
    (h : s.resultsFile ≠ .corrupt) :
    countOf (applyOp s ⟨e, m, now, true, true⟩) m = countOf s m + 1 := by
  have hh := countOf_applyOp_success s ⟨e, m, now, true, true⟩ m h rfl rfl
  simpa using hh

/-- Witness for the amended claim C1 at a concrete input. -/
theorem claim_C1_witness :
    countOf (applyOp initState ⟨"e1", "OpenAI", 1, true, true⟩) "OpenAI"
      = countOf initState "OpenAI" + 1 :=
  claim_C1_amended initState "e1" "OpenAI" 1 (by decide)

/-- Claim C2 as stated is false on the code: after selecting OpenAI twice for
the same item, the persisted counter is 2 while only 1 distinct item has
OpenAI in its record. -/
theorem claim_C2_counterexample :
    countOf (runOps initState [⟨"e1", "OpenAI", 1, true, true⟩,
        ⟨"e1", "OpenAI", 2, true, true⟩]) "OpenAI" = 2
    ∧ itemsSelecting (runOps initState [⟨"e1", "OpenAI", 1, true, true⟩,
        ⟨"e1", "OpenAI", 2, true, true⟩]) "OpenAI" = 1 := by
  decide

/-- Claim C2 amended: after any sequence of fully successful select operations
starting from fresh storage, the persisted count for a model equals the total
number of select calls naming that model, not the number of distinct items
selecting it. -/
theorem claim_C2_amended (ops : List SelectOp) (m : String)
    (hops : ∀ op ∈ ops, op.ledgerWriteOk = true ∧ op.statsWriteOk = true) :
    countOf (runOps initState ops) m = selectCount ops m := by
  rw [countOf_runOps_all_ok ops initState m (by decide) hops, countOf_initState,
    Nat.zero_add]

/-- Witness for the amended claim C2 at a concrete input. -/
theorem claim_C2_witness :
    countOf (runOps initState [⟨"e1", "OpenAI", 1, true, true⟩,
        ⟨"e2", "OpenAI", 2, true, true⟩]) "OpenAI"
      = selectCount [⟨"e1", "OpenAI", 1, true, true⟩,
        ⟨"e2", "OpenAI", 2, true, true⟩] "OpenAI" :=
  claim_C2_amended [⟨"e1", "OpenAI", 1, true, true⟩,
    ⟨"e2", "OpenAI", 2, true, true⟩] "OpenAI" (by decide)

/-- Claim C3 as stated is false on the code: when the ledger write succeeds
and the stats write fails, the call returns True — the very same value as on
total success — and the stats store is silently left untouched, so no
partial-success condition is surfaced. -/
theorem claim_C3_counterexample :
    (save_model_selection "e1" "OpenAI" 1 .missing .missing true false).ok = true
    ∧ (save_model_selection "e1" "OpenAI" 1 .missing .missing true false).statsFile
        = .missing
    ∧ (save_model_selection "e1" "OpenAI" 1 .missing .missing true false).ok
        = (save_model_selection "e1" "OpenAI" 1 .missing .missing true true).ok := by
  decide

/-- Claim C3 amended: if the ledger write succeeds but the stats write fails,
`save_model_selection` still reports total success (True) and leaves the stats
store unchanged; the failure is only printed, never surfaced to the caller. -/
theorem claim_C3_amended (s : SysState) (e m : String) (now : Nat)
    (h : s.resultsFile ≠ .corrupt) :
    (save_model_selection e m now s.resultsFile s.statsFile true false).ok = true
    ∧ (save_model_selection e m now s.resultsFile s.statsFile true false).statsFile
        = s.statsFile := by
  rw [save_model_selection_success e m now s.resultsFile s.statsFile false h]
  exact ⟨rfl, rfl⟩

/-- Witness for the amended claim C3 at a concrete input. -/
theorem claim_C3_witness :
    (save_model_selection "e1" "OpenAI" 1 initState.resultsFile initState.statsFile
        true false).ok = true
    ∧ (save_model_selection "e1" "OpenAI" 1 initState.resultsFile
        initState.statsFile true false).statsFile = initState.statsFile :=
  claim_C3_amended initState "e1" "OpenAI" 1 (by decide)

/-- Claim C4 as stated is false on the code: the first call newly adds OpenAI
to e1's record, the second call finds it already present, and both return the
identical value True, so the caller cannot distinguish the two cases. -/
theorem claim_C4_counterexample :
    recordOf (runOps initState [⟨"e1", "OpenAI", 1, true, true⟩]) "e1"
      = some ⟨["OpenAI"], 1⟩
    ∧ (save_model_selection "e1" "OpenAI" 2
        (runOps initState [⟨"e1", "OpenAI", 1, true, true⟩]).resultsFile
        (runOps initState [⟨"e1", "OpenAI", 1, true, true⟩]).statsFile true true).ok
      = (save_model_selection "e1" "OpenAI" 1 .missing .missing true true).ok := by
  decide

/-- Claim C4 amended: the return value of the record operation reports only
overall success or failure; whenever the ledger write succeeds it is True,
both when the model was newly added and when it was already present. -/
theorem claim_C4_amended (s : SysState) (e m : String) (now : Nat) (sw : Bool)
    (h : s.resultsFile ≠ .corrupt) :
    (save_model_selection e m now s.resultsFile s.statsFile true sw).ok = true := by
  rw [save_model_selection_success e m now s.resultsFile s.statsFile sw h]

/-- Witness for the amended claim C4 at a concrete input where the model is
already present. -/
theorem claim_C4_witness :
    (save_model_selection "e1" "OpenAI" 2
        (FileState.parsed [("e1", ⟨["OpenAI"], 1⟩)]) .missing true true).ok = true :=
  claim_C4_amended ⟨.parsed [("e1", ⟨["OpenAI"], 1⟩)], .missing⟩ "e1" "OpenAI" 2 true
    (by decide)

/-- Claim C5: after any sequence of select calls from fresh storage every
record's `selected_models` is duplicate-free, and selecting an
already-selected model leaves that item's record unchanged. -/
theorem claim_C5 :
    (∀ (ops : List SelectOp) (e : String) (r : ComparisonResult),
        recordOf (runOps initState ops) e = some r → List.Nodup r.selected_models)
    ∧ ∀ (s : SysState) (e m : String) (now : Nat) (lw sw : Bool)
        (r : ComparisonResult),
        recordOf s e = some r → m ∈ r.selected_models →
        recordOf (applyOp s ⟨e, m, now, lw, sw⟩) e = some r := by
  constructor
  · intro ops e r hr
    have hinv := ledgerNodup_runOps initState ops trivial
    exact ledgerNodup_load _ hinv (e, r) (lookupKey_mem _ _ _ hr)
  · intro s e m now lw sw r hr hm
    exact recordOf_applyOp_already s ⟨e, m, now, lw, sw⟩ r hr hm

/-- Witness for claim C5 at concrete inputs. -/
theorem claim_C5_witness :
    List.Nodup (ComparisonResult.mk ["OpenAI"] 1).selected_models
    ∧ recordOf (applyOp ⟨.parsed [("e1", ⟨["OpenAI"], 1⟩)], .missing⟩
        ⟨"e1", "OpenAI", 2, true, true⟩) "e1" = some ⟨["OpenAI"], 1⟩ :=
  ⟨claim_C5.1 [⟨"e1", "OpenAI", 1, true, true⟩] "e1" ⟨["OpenAI"], 1⟩ (by decide),
   claim_C5.2 ⟨.parsed [("e1", ⟨["OpenAI"], 1⟩)], .missing⟩ "e1" "OpenAI" 2 true true
     ⟨["OpenAI"], 1⟩ (by decide) (by decide)⟩

/-- Claim C6: loading a missing backing store yields the empty mapping for the
ledger and the seeded default (all four known models at zero) for the stats,
an unparsable store behaves identically, and both loaders are total functions
that never fail. -/
theorem claim_C6 :
    load_json_data (FileState.missing : FileState Ledger) = []
    ∧ load_json_data (FileState.corrupt : FileState Ledger) = []
    ∧ load_selection_stats .missing = default_selection_stats
    ∧ load_selection_stats .corrupt = default_selection_stats
    ∧ lookupKey default_selection_stats "OpenAI" = some 0
    ∧ lookupKey default_selection_stats "DeepSeek" = some 0
    ∧ lookupKey default_selection_stats "LLaMA" = some 0
    ∧ lookupKey default_selection_stats "Qwen" = some 0 := by
  decide

/-- Claim C7: when the ledger write fails the whole operation returns False,
the stats store is untouched (the increment step never runs), and the ledger
store is also untouched. -/
theorem claim_C7 (e m : String) (now : Nat) (rf : FileState Ledger)
    (sf : FileState Stats) (sw : Bool) :
    (save_model_selection e m now rf sf false sw).ok = false
    ∧ (save_model_selection e m now rf sf false sw).statsFile = sf
    ∧ (save_model_selection e m now rf sf false sw).resultsFile = rf := by
  rw [save_model_selection_ledger_fail e m now rf sf sw]
  exact ⟨rfl, rfl, rfl⟩

/-- Claim C8 as stated is false on the code: the second select mutates e1's
record (DeepSeek is added at time 2) but the stored timestamp stays at the
creation time 1, not the time of the most recent mutation. -/
theorem claim_C8_counterexample :
    recordOf (runOps initState [⟨"e1", "OpenAI", 1, true, true⟩]) "e1"
      = some ⟨["OpenAI"], 1⟩
    ∧ recordOf (runOps initState [⟨"e1", "OpenAI", 1, true, true⟩,
        ⟨"e1", "DeepSeek", 2, true, true⟩]) "e1"
      = some ⟨["OpenAI", "DeepSeek"], 1⟩
    ∧ recordOf (runOps initState [⟨"e1", "OpenAI", 1, true, true⟩,
        ⟨"e1", "DeepSeek", 2, true, true⟩]) "e1"
      ≠ some ⟨["OpenAI", "DeepSeek"], 2⟩ := by
  decide

/-- Claim C8 amended: the timestamp is set only when the record is first
created; any later select call on an existing record, mutating or not, leaves
its `comparison_date` unchanged. -/
theorem claim_C8_amended (s : SysState) (op : SelectOp) (r : ComparisonResult)
    (hr : recordOf s op.email_id = some r) :
    ∃ r', recordOf (applyOp s op) op.email_id = some r'
      ∧ r'.comparison_date = r.comparison_date :=
  recordOf_applyOp_date s op r hr

/-- Witness for the amended claim C8 at a concrete input. -/
theorem claim_C8_witness :
    ∃ r', recordOf (applyOp ⟨.parsed [("e1", ⟨["OpenAI"], 1⟩)], .missing⟩
        ⟨"e1", "DeepSeek", 2, true, true⟩) "e1" = some r'
      ∧ r'.comparison_date = (ComparisonResult.mk ["OpenAI"] 1).comparison_date :=
  claim_C8_amended ⟨.parsed [("e1", ⟨["OpenAI"], 1⟩)], .missing⟩
    ⟨"e1", "DeepSeek", 2, true, true⟩ ⟨["OpenAI"], 1⟩ (by decide)

/-- Claim C9: no model's persisted counter ever decreases, neither across one
select call nor across any sequence of them. -/
theorem claim_C9 :
    (∀ (s : SysState) (op : SelectOp) (m : String),
        countOf s m ≤ countOf (applyOp s op) m)
    ∧ ∀ (s : SysState) (ops : List SelectOp) (m : String),
        countOf s m ≤ countOf (runOps s ops) m :=
  ⟨countOf_le_applyOp, countOf_le_runOps⟩

/-- Claim C10: a successful select call leaves every other item's record and
every other model's counter unchanged. -/
theorem claim_C10 (s : SysState) (e m : String) (now : Nat) (lw sw : Bool)
    (e' m' : String) (he : e' ≠ e) (hm : m' ≠ m)
    (h1 : (save_model_selection e m now s.resultsFile s.statsFile lw sw).ok = true) :
    recordOf (applyOp s ⟨e, m, now, lw, sw⟩) e' = recordOf s e'
    ∧ countOf (applyOp s ⟨e, m, now, lw, sw⟩) m' = countOf s m' :=
  ⟨recordOf_applyOp_ne s ⟨e, m, now, lw, sw⟩ e' he,
   countOf_applyOp_ne s ⟨e, m, now, lw, sw⟩ m' hm⟩

/-- Witness for claim C10 at a concrete input. -/
theorem claim_C10_witness :
    recordOf (applyOp initState ⟨"e1", "OpenAI", 1, true, true⟩) "e2"
      = recordOf initState "e2"
    ∧ countOf (applyOp initState ⟨"e1", "OpenAI", 1, true, true⟩) "DeepSeek"
      = countOf initState "DeepSeek" :=
  claim_C10 initState "e1" "OpenAI" 1 true true "e2" "DeepSeek" (by decide)
    (by decide) (by decide)
